import Mathlib

/-!
Shallow embedding of the `runcmd` Go package (lestrrat-go/runcmd),
file `runcmd.go`.

The package stores optional execution parameters (stdout/stderr/stdin
streams, working directory, environment, extra files) in a
`context.Context` overlay keyed by private marker types, and `Create`
resolves such a context into a configured `*exec.Cmd`.

Modelling choices:
- A Go `context.Context` value chain is a list of `(Key, GoVal)` pairs,
  most recently added first; `ctx.Value(k)` returns the first match
  (`lookupValue`).  `context.Background()` is the empty list.
- Go dynamic (interface) values under the option keys are `GoVal`:
  stream objects carry an identity `id` (pointer identity), capability
  flags mirroring whether the dynamic type implements `io.Reader` /
  `io.Writer`, and the `%T` type name; `str`, `strSlice`, `fileSlice`
  model dynamic types `string`, `[]string`, `[]*os.File`; `other` is
  any dynamic type with none of those capabilities.
- Go `error` results become `Except String`, the `String` being the
  error message produced with `fmt.Errorf`.
- An `*exec.Cmd` is `Cmd`; fields the package never assigns keep the
  Go zero value declared as a default.  `Option` distinguishes a nil
  interface / nil slice from a set one.
- `os.Stdout`, `os.Stderr`, `os.Stdin` are `*os.File` objects, which
  implement both `io.Reader` and `io.Writer`.
-/

inductive GoVal where
  | stream (id : Nat) (canRead : Bool) (canWrite : Bool) (ty : String)
  | str (s : String)
  | strSlice (l : List String)
  | fileSlice (l : List Nat)
  | other (ty : String)
deriving DecidableEq, Repr

namespace GoVal

/-- Whether the dynamic type of the value implements `io.Writer`
(the type assertion `tmp.(io.Writer)` succeeds). -/
def isWriter : GoVal → Bool
  | stream _ _ w _ => w
  | _ => false

/-- Whether the dynamic type of the value implements `io.Reader`
(the type assertion `tmp.(io.Reader)` succeeds). -/
def isReader : GoVal → Bool
  | stream _ r _ _ => r
  | _ => false

/-- The type assertion `tmp.(string)`. -/
def asString : GoVal → Option String
  | str s => some s
  | _ => none

/-- The type assertion `tmp.( []string )`. -/
def asStrSlice : GoVal → Option (List String)
  | strSlice l => some l
  | _ => none

/-- The `%T` formatting verb: the name of the dynamic type. -/
def typeName : GoVal → String
  | stream _ _ _ ty => ty
  | str _ => "string"
  | strSlice _ => "[]string"
  | fileSlice _ => "[]*os.File"
  | other ty => ty

end GoVal

/-- `os.Stdout`, a `*os.File` (readable and writable). -/
def osStdout : GoVal := .stream 1 true true "*os.File"

/-- `os.Stderr`. -/
def osStderr : GoVal := .stream 2 true true "*os.File"

/-- `os.Stdin`. -/
def osStdin : GoVal := .stream 0 true true "*os.File"

/-- The six private marker key types `identStdout`, `identStderr`,
`identStdin`, `identDir`, `identEnv`, `identExtraFiles`. -/
inductive Key where
  | stdout
  | stderr
  | stdin
  | dir
  | env
  | extraFiles
deriving DecidableEq, Repr

/-- A `context.Context` value chain: overlay nodes, newest first.
`[]` is a base context carrying none of the option keys. -/
abbrev GoContext := List (Key × GoVal)

/-- `ctx.Value(key)`: walk the overlay chain from the most recent
node; `none` models the `nil` result on a miss. -/
def lookupValue : GoContext → Key → Option GoVal
  | [], _ => none
  | (k', v) :: rest, k => if k' = k then some v else lookupValue rest k

/-- `context.WithValue(ctx, key, val)`: a new overlay node in front of
the existing chain; prior nodes are shared, not copied or changed. -/
def withValue (ctx : GoContext) (k : Key) (v : GoVal) : GoContext :=
  (k, v) :: ctx

/-- Body of `(*rcCtx).WithStdout` acting on the embedded context. -/
def rcWithStdout (ctx : GoContext) (v : GoVal) : GoContext :=
  withValue ctx Key.stdout v

/-- Body of `(*rcCtx).WithStderr` acting on the embedded context. -/
def rcWithStderr (ctx : GoContext) (v : GoVal) : GoContext :=
  withValue ctx Key.stderr v

/-- Body of `(*rcCtx).WithStdin` acting on the embedded context. -/
def rcWithStdin (ctx : GoContext) (v : GoVal) : GoContext :=
  withValue ctx Key.stdin v

/-- Body of `(*rcCtx).WithDir` acting on the embedded context. -/
def rcWithDir (ctx : GoContext) (s : String) : GoContext :=
  withValue ctx Key.dir (.str s)

/-- Body of `(*rcCtx).WithEnv` acting on the embedded context. -/
def rcWithEnv (ctx : GoContext) (environ : List String) : GoContext :=
  withValue ctx Key.env (.strSlice environ)

/-- Body of `(*rcCtx).WithExtraFiles` acting on the embedded context. -/
def rcWithExtraFiles (ctx : GoContext) (files : List Nat) : GoContext :=
  withValue ctx Key.extraFiles (.fileSlice files)

/-- `getWriter(ctx, dst, key, name)`.  `dst` is the current value of
the destination `io.Writer` variable (`none` = nil interface); the
result is its value after the call, or the error returned. -/
def getWriter (ctx : GoContext) (dst : Option GoVal) (key : Key)
    (name : String) : Except String (Option GoVal) :=
  match lookupValue ctx key with
  | none => .ok dst
  | some tmp =>
    if tmp.isWriter then .ok (some tmp)
    else .error ("expected io.Writer for " ++ name ++ ", got " ++ tmp.typeName)

/-- `getReader(ctx, dst, key, name)`. -/
def getReader (ctx : GoContext) (dst : Option GoVal) (key : Key)
    (name : String) : Except String (Option GoVal) :=
  match lookupValue ctx key with
  | none => .ok dst
  | some tmp =>
    if tmp.isReader then .ok (some tmp)
    else .error ("expected io.Reader for " ++ name ++ ", got " ++ tmp.typeName)

/-- `getString(ctx, dst, key, name)`. -/
def getString (ctx : GoContext) (dst : String) (key : Key)
    (name : String) : Except String String :=
  match lookupValue ctx key with
  | none => .ok dst
  | some tmp =>
    match tmp.asString with
    | some v => .ok v
    | none => .error ("expected string for " ++ name ++ ", got " ++ tmp.typeName)

/-- `getStringSlice(ctx, dst, key, name)`.  Note the source's error
message says `expected string`, not `expected []string`. -/
def getStringSlice (ctx : GoContext) (dst : Option (List String)) (key : Key)
    (name : String) : Except String (Option (List String)) :=
  match lookupValue ctx key with
  | none => .ok dst
  | some tmp =>
    match tmp.asStrSlice with
    | some v => .ok (some v)
    | none => .error ("expected string for " ++ name ++ ", got " ++ tmp.typeName)

/-- An `exec.Cmd` as far as this package touches it.  Defaults are the
Go zero values of the fields `exec.CommandContext` leaves unset. -/
structure Cmd where
  path : String
  args : List String
  stdout : Option GoVal := none
  stderr : Option GoVal := none
  stdin : Option GoVal := none
  dir : String := ""
  env : Option (List String) := none
  extraFiles : Option (List Nat) := none
deriving DecidableEq, Repr

/-- `Create(ctx, path, args...)`, line for line: five typed lookups in
the order Stdout, Stderr, Stdin, Dir, Env, each wrapped on failure,
then conditional assignment of the `exec.Cmd` fields.  The ExtraFiles
key is never inspected. -/
def Create (ctx : GoContext) (path : String) (args : List String) :
    Except String Cmd :=
  match getWriter ctx (some osStdout) Key.stdout "Stdout" with
  | .error e => .error ("failed to assign Stdout: " ++ e)
  | .ok stdout =>
  match getWriter ctx (some osStderr) Key.stderr "Stderr" with
  | .error e => .error ("failed to assign Stderr: " ++ e)
  | .ok stderr =>
  match getReader ctx (some osStdin) Key.stdin "Stdin" with
  | .error e => .error ("failed to assign Stdin: " ++ e)
  | .ok stdin =>
  match getString ctx "" Key.dir "Dir" with
  | .error e => .error ("failed to assign Dir: " ++ e)
  | .ok dir =>
  match getStringSlice ctx none Key.env "Env" with
  | .error e => .error ("failed to assign Env: " ++ e)
  | .ok environ =>
    let cmd : Cmd := { path := path, args := args }
    let cmd := if stdout.isSome then { cmd with stdout := stdout } else cmd
    let cmd := if stderr.isSome then { cmd with stderr := stderr } else cmd
    let cmd := if stdin.isSome then { cmd with stdin := stdin } else cmd
    let cmd := if dir ≠ "" then { cmd with dir := dir } else cmd
    let cmd := if environ.isSome then { cmd with env := environ } else cmd
    .ok cmd

/-- `Run(ctx, path, args...)`.  The call `cmd.Run()` on the built
`*exec.Cmd` is the trusted external process-management collaborator;
it is abstracted as `runOracle`, mapping a configured command to its
execution result (`none` = nil error). -/
def Run (runOracle : Cmd → Option String) (ctx : GoContext) (path : String)
    (args : List String) : Option String :=
  match Create ctx path args with
  | .error e => some ("failed to create *exec.Cmd: " ++ e)
  | .ok cmd => runOracle cmd

/-! ## Resolution described field by field

`resolveCmd` restates what `Create` computes on a context whose present
option values all have the expected types; `create_wf` proves the two
agree.  `okType` is the per-key typing discipline `Create` checks. -/

/-- The type `Create` expects for a value found under each key.  The
ExtraFiles key is never looked up, so any value is fine there. -/
def okType : Key → GoVal → Bool
  | .stdout, v => v.isWriter
  | .stderr, v => v.isWriter
  | .stdin, v => v.isReader
  | .dir, v => v.asString.isSome
  | .env, v => v.asStrSlice.isSome
  | .extraFiles, _ => true

/-- Every option value present in the context has the expected type. -/
def wellFormed (ctx : GoContext) : Prop :=
  ∀ k v, lookupValue ctx k = some v → okType k v = true

/-- The stream object a stream field resolves to: the context's value
if present, else the inherited default. -/
def resolvedStream (ctx : GoContext) (k : Key) (d : GoVal) : Option GoVal :=
  match lookupValue ctx k with
  | some v => some v
  | none => some d

/-- The string the `Dir` field resolves to (`""` = unset). -/
def resolvedDir (ctx : GoContext) : String :=
  match lookupValue ctx Key.dir with
  | some (.str s) => s
  | _ => ""

/-- The environment the `Env` field resolves to (`none` = nil slice,
the child inherits the parent environment). -/
def resolvedEnv (ctx : GoContext) : Option (List String) :=
  match lookupValue ctx Key.env with
  | some (.strSlice l) => some l
  | _ => none

/-- The command `Create` builds on a well-formed context. -/
def resolveCmd (ctx : GoContext) (path : String) (args : List String) : Cmd :=
  { path := path, args := args,
    stdout := resolvedStream ctx Key.stdout osStdout,
    stderr := resolvedStream ctx Key.stderr osStderr,
    stdin := resolvedStream ctx Key.stdin osStdin,
    dir := resolvedDir ctx,
    env := resolvedEnv ctx,
    extraFiles := none }

/-! ## The public builder API as op sequences

A context "built solely through the public builder API" is
`applyOps base ops` for an op list: each op is one `With*` call with
its statically typed Go argument.  The static types of the Go methods
(`io.Writer`, `io.Reader`, `string`, `...string`, `...*os.File`)
constrain stream arguments to values with the matching capability,
which `BuilderOp.wellTyped` records. -/

inductive BuilderOp where
  | bStdout (v : GoVal)
  | bStderr (v : GoVal)
  | bStdin (v : GoVal)
  | bDir (s : String)
  | bEnv (environ : List String)
  | bExtraFiles (files : List Nat)
deriving DecidableEq, Repr

/-- Dispatch one `With*` call to its embedding. -/
def applyOp (ctx : GoContext) : BuilderOp → GoContext
  | .bStdout v => rcWithStdout ctx v
  | .bStderr v => rcWithStderr ctx v
  | .bStdin v => rcWithStdin ctx v
  | .bDir s => rcWithDir ctx s
  | .bEnv environ => rcWithEnv ctx environ
  | .bExtraFiles files => rcWithExtraFiles ctx files

/-- Chain of `With*` calls, first op applied first. -/
def applyOps (ctx : GoContext) : List BuilderOp → GoContext
  | [] => ctx
  | op :: rest => applyOps (applyOp ctx op) rest

/-- The Go static types of the `With*` parameters: an argument passed
to `WithStdout`/`WithStderr` is statically an `io.Writer`, one passed
to `WithStdin` an `io.Reader`; the rest are exact types. -/
def BuilderOp.wellTyped : BuilderOp → Bool
  | .bStdout v => v.isWriter
  | .bStderr v => v.isWriter
  | .bStdin v => v.isReader
  | _ => true

/-- The overlay entry an op pushes. -/
def BuilderOp.entry : BuilderOp → Key × GoVal
  | .bStdout v => (Key.stdout, v)
  | .bStderr v => (Key.stderr, v)
  | .bStdin v => (Key.stdin, v)
  | .bDir s => (Key.dir, .str s)
  | .bEnv environ => (Key.env, .strSlice environ)
  | .bExtraFiles files => (Key.extraFiles, .fileSlice files)

/-! ## Type-mismatch errors (claim C3) -/

/-- The option name `Create` passes to each getter. -/
def optName : Key → String
  | .stdout => "Stdout"
  | .stderr => "Stderr"
  | .stdin => "Stdin"
  | .dir => "Dir"
  | .env => "Env"
  | .extraFiles => "ExtraFiles"

/-- The expected-type text in each getter's error message (the source
reuses `expected string` for the Env slice). -/
def expectedTyOf : Key → String
  | .stdout => "io.Writer"
  | .stderr => "io.Writer"
  | .stdin => "io.Reader"
  | .dir => "string"
  | .env => "string"
  | .extraFiles => ""

/-- The getter's type-mismatch message for a wrong-typed value. -/
def mismatchMsg (k : Key) (v : GoVal) : String :=
  "expected " ++ expectedTyOf k ++ " for " ++ optName k ++ ", got " ++
    v.typeName

/-- The message after `Create` wraps the getter error. -/
def wrappedMismatch (k : Key) (v : GoVal) : String :=
  "failed to assign " ++ optName k ++ ": " ++ mismatchMsg k v

/-- The position of each key in `Create`'s fixed inspection order. -/
def inspOrder : Key → Nat
  | .stdout => 0
  | .stderr => 1
  | .stdin => 2
  | .dir => 3
  | .env => 4
  | .extraFiles => 5

/-! ## The `rcCtx` wrapper seen as a heap cell (claim C7)

A `*rcCtx` is a pointer to a mutable cell holding the embedded
`context.Context` chain.  A heap maps pointers to cell contents; each
`With*` method overwrites the receiver's cell with a one-node overlay
extension and returns the receiver pointer itself. -/

abbrev Heap := Nat → GoContext

/-- `ctx.Context = context.WithValue(ctx.Context, key, val); return ctx`:
update the cell at `p`, return `p`. -/
def heapWithValue (h : Heap) (p : Nat) (k : Key) (v : GoVal) :
    Heap × Nat :=
  (fun q => if q = p then withValue (h p) k v else h q, p)

/-- `(*rcCtx).WithStdout` at the heap level. -/
def heapWithStdout (h : Heap) (p : Nat) (v : GoVal) : Heap × Nat :=
  heapWithValue h p Key.stdout v

/-- `(*rcCtx).WithStderr` at the heap level. -/
def heapWithStderr (h : Heap) (p : Nat) (v : GoVal) : Heap × Nat :=
  heapWithValue h p Key.stderr v

/-- `(*rcCtx).WithStdin` at the heap level. -/
def heapWithStdin (h : Heap) (p : Nat) (v : GoVal) : Heap × Nat :=
  heapWithValue h p Key.stdin v

/-- `(*rcCtx).WithDir` at the heap level. -/
def heapWithDir (h : Heap) (p : Nat) (s : String) : Heap × Nat :=
  heapWithValue h p Key.dir (.str s)

/-- `(*rcCtx).WithEnv` at the heap level. -/
def heapWithEnv (h : Heap) (p : Nat) (environ : List String) :
    Heap × Nat :=
  heapWithValue h p Key.env (.strSlice environ)

/-- `(*rcCtx).WithExtraFiles` at the heap level. -/
def heapWithExtraFiles (h : Heap) (p : Nat) (files : List Nat) :
    Heap × Nat :=
  heapWithValue h p Key.extraFiles (.fileSlice files)

/-! ## Re-resolution (claim C9)

`exec.CommandContext` allocates a fresh `*exec.Cmd` on every call;
`createFresh` is `Create` with that allocation made explicit through a
counter of never-before-used handle identities. -/

/-- `Create` with handle allocation explicit: on success the handle is
the pair of a fresh identity and the configuration `Create` computes,
and the counter advances. -/
def createFresh (ctx : GoContext) (path : String) (args : List String)
    (fresh : Nat) : Except String (Nat × Cmd) × Nat :=
  match Create ctx path args with
  | .error e => (.error e, fresh)
  | .ok cmd => (.ok (fresh, cmd), fresh + 1)

theorem resolvedStream_isSome (ctx : GoContext) (k : Key) (d : GoVal) :
    (resolvedStream ctx k d).isSome = true := by
  unfold resolvedStream
  cases lookupValue ctx k <;> rfl

theorem getWriter_wf (ctx : GoContext) (d : GoVal) (k : Key) (n : String)
    (h : ∀ v, lookupValue ctx k = some v → v.isWriter = true) :
    getWriter ctx (some d) k n = .ok (resolvedStream ctx k d) := by
  unfold getWriter resolvedStream
  cases hl : lookupValue ctx k with
  | none => rfl
  | some v => simp [h v hl]

theorem getReader_wf (ctx : GoContext) (d : GoVal) (k : Key) (n : String)
    (h : ∀ v, lookupValue ctx k = some v → v.isReader = true) :
    getReader ctx (some d) k n = .ok (resolvedStream ctx k d) := by
  unfold getReader resolvedStream
  cases hl : lookupValue ctx k with
  | none => rfl
  | some v => simp [h v hl]

theorem getString_wf (ctx : GoContext) (n : String)
    (h : ∀ v, lookupValue ctx Key.dir = some v → v.asString.isSome = true) :
    getString ctx "" Key.dir n = .ok (resolvedDir ctx) := by
  unfold getString resolvedDir
  cases hl : lookupValue ctx Key.dir with
  | none => rfl
  | some v =>
    have := h v hl
    cases v <;> simp_all [GoVal.asString]

theorem getStringSlice_wf (ctx : GoContext) (n : String)
    (h : ∀ v, lookupValue ctx Key.env = some v → v.asStrSlice.isSome = true) :
    getStringSlice ctx none Key.env n = .ok (resolvedEnv ctx) := by
  unfold getStringSlice resolvedEnv
  cases hl : lookupValue ctx Key.env with
  | none => rfl
  | some v =>
    have := h v hl
    cases v <;> simp_all [GoVal.asStrSlice]

theorem create_wf (ctx : GoContext) (path : String) (args : List String)
    (h : wellFormed ctx) :
    Create ctx path args = .ok (resolveCmd ctx path args) := by
  have hO := getWriter_wf ctx osStdout Key.stdout "Stdout"
    (fun v hv => h Key.stdout v hv)
  have hE := getWriter_wf ctx osStderr Key.stderr "Stderr"
    (fun v hv => h Key.stderr v hv)
  have hI := getReader_wf ctx osStdin Key.stdin "Stdin"
    (fun v hv => h Key.stdin v hv)
  have hD := getString_wf ctx "Dir" (fun v hv => h Key.dir v hv)
  have hV := getStringSlice_wf ctx "Env" (fun v hv => h Key.env v hv)
  unfold Create
  rw [hO, hE, hI, hD, hV]
  simp only [resolvedStream_isSome, if_true, resolveCmd]
  by_cases hdir : resolvedDir ctx = "" <;>
    cases henv : resolvedEnv ctx <;>
      simp_all [resolveCmd]

theorem applyOp_eq (ctx : GoContext) (op : BuilderOp) :
    applyOp ctx op = op.entry :: ctx := by
  cases op <;> rfl

theorem applyOps_eq (ops : List BuilderOp) (ctx : GoContext) :
    applyOps ctx ops = (ops.map BuilderOp.entry).reverse ++ ctx := by
  induction ops generalizing ctx with
  | nil => rfl
  | cons op rest ih =>
    simp [applyOps, applyOp_eq, ih, withValue]

theorem okType_entry (op : BuilderOp) (h : op.wellTyped = true) :
    okType op.entry.1 op.entry.2 = true := by
  cases op <;>
    simp_all [BuilderOp.wellTyped, BuilderOp.entry, okType,
      GoVal.asString, GoVal.asStrSlice]

theorem wellFormed_cons (ctx : GoContext) (k : Key) (v : GoVal)
    (hctx : wellFormed ctx) (hv : okType k v = true) :
    wellFormed (((k, v) : Key × GoVal) :: ctx) := by
  intro k' v' h
  by_cases hk : k = k'
  · subst hk
    simp [lookupValue] at h
    simpa [← h]
  · rw [show lookupValue ((k, v) :: ctx) k' = lookupValue ctx k' by
      simp [lookupValue, hk]] at h
    exact hctx k' v' h

theorem wellFormed_applyOps (ctx : GoContext) (hctx : wellFormed ctx)
    (ops : List BuilderOp) (hops : ∀ op ∈ ops, op.wellTyped = true) :
    wellFormed (applyOps ctx ops) := by
  induction ops generalizing ctx with
  | nil => exact hctx
  | cons op rest ih =>
    rw [applyOps, applyOp_eq]
    exact ih _ (wellFormed_cons _ _ _ hctx
        (okType_entry op (hops op (by simp))))
      (fun o ho => hops o (by simp [ho]))

theorem wellFormed_nil : wellFormed ([] : GoContext) := by
  intro k v h
  cases h

/-! ## Lookup facts used by the order-independence claims -/

theorem lookupValue_unique (l : GoContext) (k : Key) (v : GoVal)
    (hmem : (k, v) ∈ l) (huniq : ∀ p ∈ l, p.1 = k → p.2 = v) :
    lookupValue l k = some v := by
  induction l with
  | nil => cases hmem
  | cons p rest ih =>
    obtain ⟨k', v'⟩ := p
    by_cases hk : k' = k
    · subst hk
      have hv : v' = v := huniq (k', v') (List.mem_cons_self _ _) rfl
      simp [lookupValue, hv]
    · rw [show lookupValue ((k', v') :: rest) k = lookupValue rest k by
        simp [lookupValue, hk]]
      rcases List.mem_cons.mp hmem with heq | hmem'
      · exact absurd (congrArg Prod.fst heq).symm hk
      · exact ih hmem' (fun p hp => huniq p (List.mem_cons_of_mem _ hp))

/-! ## Claims -/

/-- Claim C5: resolving a base context with no options set yields a
handle whose streams are the process-inherited `os.Stdout`,
`os.Stderr`, `os.Stdin`, whose directory is unset (empty) and whose
environment is unset (nil, inheriting the parent environment). -/
theorem C5_defaults (path : String) (args : List String) :
    Create [] path args =
      .ok { path := path, args := args, stdout := some osStdout,
            stderr := some osStderr, stdin := some osStdin, dir := "",
            env := none, extraFiles := none } := rfl

/-- Claim C10: on any context built solely through the public builder
API over an option-free base, every typed lookup inside `Create`
succeeds, so `Create` never returns an error: the stored values always
carry the capabilities the Go method signatures guarantee. -/
theorem C10_builder_contexts_never_fail (ops : List BuilderOp)
    (hops : ∀ op ∈ ops, op.wellTyped = true)
    (path : String) (args : List String) :
    ∃ cmd, Create (applyOps [] ops) path args = Except.ok cmd :=
  ⟨_, create_wf _ _ _ (wellFormed_applyOps [] wellFormed_nil ops hops)⟩

theorem C10_witness :
    ∃ cmd, Create (applyOps []
        [BuilderOp.bStdout osStdout, BuilderOp.bStdin osStdin,
         BuilderOp.bDir "/tmp", BuilderOp.bEnv ["A=1"],
         BuilderOp.bExtraFiles [9]]) "go" ["version"] = Except.ok cmd :=
  C10_builder_contexts_never_fail _ (by decide) "go" ["version"]

/-- Claim C4: a context on which the environment was set to a (non-nil)
empty list resolves to a handle with an empty environment, observably
different from a context on which the environment was never set, whose
handle keeps a nil environment and inherits the parent's. -/
theorem C4_empty_env_honored (ops ops' : List BuilderOp)
    (hops : ∀ op ∈ ops, op.wellTyped = true)
    (hops' : ∀ op ∈ ops', op.wellTyped = true)
    (hset : lookupValue (applyOps [] ops) Key.env = some (GoVal.strSlice []))
    (hunset : lookupValue (applyOps [] ops') Key.env = none)
    (path : String) (args : List String) :
    ∃ cmd cmd', Create (applyOps [] ops) path args = .ok cmd ∧
      Create (applyOps [] ops') path args = .ok cmd' ∧
      cmd.env = some [] ∧ cmd'.env = none ∧ cmd.env ≠ cmd'.env := by
  refine ⟨_, _,
    create_wf _ _ _ (wellFormed_applyOps [] wellFormed_nil ops hops),
    create_wf _ _ _ (wellFormed_applyOps [] wellFormed_nil ops' hops'),
    ?_, ?_, ?_⟩ <;>
    simp [resolveCmd, resolvedEnv, hset, hunset]

theorem C4_witness :
    ∃ cmd cmd',
      Create (applyOps [] [BuilderOp.bEnv []]) "ls" [] = .ok cmd ∧
      Create (applyOps [] []) "ls" [] = .ok cmd' ∧
      cmd.env = some [] ∧ cmd'.env = none ∧ cmd.env ≠ cmd'.env :=
  C4_empty_env_honored [BuilderOp.bEnv []] [] (by decide) (by decide)
    rfl rfl "ls" []

/-- Claim C6: a builder context whose directory option resolved to the
empty string (set to `""` or never set) yields a handle whose
directory field stays unset (`""`); the field is populated only when
the resolved string is non-empty, in which case it came from the
context. -/
theorem C6_empty_dir_unset (ops : List BuilderOp)
    (hops : ∀ op ∈ ops, op.wellTyped = true)
    (path : String) (args : List String) :
    ∃ cmd, Create (applyOps [] ops) path args = .ok cmd ∧
      ((lookupValue (applyOps [] ops) Key.dir = none ∨
        lookupValue (applyOps [] ops) Key.dir = some (GoVal.str "")) →
        cmd.dir = "") ∧
      (cmd.dir ≠ "" →
        lookupValue (applyOps [] ops) Key.dir = some (GoVal.str cmd.dir)) := by
  have hwf := wellFormed_applyOps [] wellFormed_nil ops hops
  refine ⟨_, create_wf _ _ _ hwf, ?_, ?_⟩
  · rintro (h | h) <;> simp [resolveCmd, resolvedDir, h]
  · intro hne
    simp only [resolveCmd] at hne ⊢
    unfold resolvedDir at hne ⊢
    cases hl : lookupValue (applyOps [] ops) Key.dir with
    | none => simp [hl] at hne
    | some v =>
      have hok := hwf Key.dir v hl
      cases v <;> simp_all [okType, GoVal.asString]

theorem C6_witness :
    ∃ cmd, Create (applyOps [] [BuilderOp.bDir ""]) "ls" [] = .ok cmd ∧
      ((lookupValue (applyOps [] [BuilderOp.bDir ""]) Key.dir = none ∨
        lookupValue (applyOps [] [BuilderOp.bDir ""]) Key.dir =
          some (GoVal.str "")) → cmd.dir = "") ∧
      (cmd.dir ≠ "" →
        lookupValue (applyOps [] [BuilderOp.bDir ""]) Key.dir =
          some (GoVal.str cmd.dir)) :=
  C6_empty_dir_unset [BuilderOp.bDir ""] (by decide) "ls" []

/-- Claim C1: on a context carrying `WithStdout(bufA)`,
`WithStderr(bufB)`, `WithStdin(bufC)`, `WithDir(tmpDir)` (non-empty)
and `WithEnv("FOO=bar", "BAZ=quux")`, chained in any order, `Create`
yields a handle whose stdout/stderr/stdin are exactly the set objects,
whose directory is `tmpDir` and whose environment is
`["FOO=bar", "BAZ=quux"]` in that order; distinct option kinds do not
interfere. -/
theorem C1_chained_options_resolve (a b c : GoVal)
    (ha : a.isWriter = true) (hb : b.isWriter = true)
    (hc : c.isReader = true) (tmpDir : String) (hd : tmpDir ≠ "")
    (ops : List BuilderOp)
    (hperm : ops.Perm [BuilderOp.bStdout a, BuilderOp.bStderr b,
      BuilderOp.bStdin c, BuilderOp.bDir tmpDir,
      BuilderOp.bEnv ["FOO=bar", "BAZ=quux"]])
    (path : String) (args : List String) :
    Create (applyOps [] ops) path args =
      .ok { path := path, args := args,
            stdout := some a, stderr := some b, stdin := some c,
            dir := tmpDir, env := some ["FOO=bar", "BAZ=quux"],
            extraFiles := none } := by
  have hctx : applyOps [] ops = (ops.map BuilderOp.entry).reverse := by
    simpa using applyOps_eq ops []
  have hcanon : ∀ op ∈ ops, op = BuilderOp.bStdout a ∨
      op = BuilderOp.bStderr b ∨ op = BuilderOp.bStdin c ∨
      op = BuilderOp.bDir tmpDir ∨
      op = BuilderOp.bEnv ["FOO=bar", "BAZ=quux"] := by
    intro op hop
    simpa using hperm.mem_iff.mp hop
  have huniqAt : ∀ (k : Key) (v : GoVal),
      (∀ op ∈ ops, op.entry.1 = k → op.entry.2 = v) →
      ∀ p ∈ (ops.map BuilderOp.entry).reverse, p.1 = k → p.2 = v := by
    intro k v h p hp hpk
    obtain ⟨op, hop, rfl⟩ := List.mem_map.mp (List.mem_reverse.mp hp)
    exact h op hop hpk
  have hstdout : lookupValue ((ops.map BuilderOp.entry).reverse)
      Key.stdout = some a := by
    refine lookupValue_unique _ _ _
      (List.mem_reverse.mpr (List.mem_map.mpr
        ⟨BuilderOp.bStdout a, hperm.mem_iff.mpr (by simp), rfl⟩))
      (huniqAt _ _ ?_)
    intro op hop hk
    rcases hcanon op hop with rfl | rfl | rfl | rfl | rfl <;>
      first
      | rfl
      | simp [BuilderOp.entry] at hk
  have hstderr : lookupValue ((ops.map BuilderOp.entry).reverse)
      Key.stderr = some b := by
    refine lookupValue_unique _ _ _
      (List.mem_reverse.mpr (List.mem_map.mpr
        ⟨BuilderOp.bStderr b, hperm.mem_iff.mpr (by simp), rfl⟩))
      (huniqAt _ _ ?_)
    intro op hop hk
    rcases hcanon op hop with rfl | rfl | rfl | rfl | rfl <;>
      first
      | rfl
      | simp [BuilderOp.entry] at hk
  have hstdin : lookupValue ((ops.map BuilderOp.entry).reverse)
      Key.stdin = some c := by
    refine lookupValue_unique _ _ _
      (List.mem_reverse.mpr (List.mem_map.mpr
        ⟨BuilderOp.bStdin c, hperm.mem_iff.mpr (by simp), rfl⟩))
      (huniqAt _ _ ?_)
    intro op hop hk
    rcases hcanon op hop with rfl | rfl | rfl | rfl | rfl <;>
      first
      | rfl
      | simp [BuilderOp.entry] at hk
  have hdir : lookupValue ((ops.map BuilderOp.entry).reverse)
      Key.dir = some (GoVal.str tmpDir) := by
    refine lookupValue_unique _ _ _
      (List.mem_reverse.mpr (List.mem_map.mpr
        ⟨BuilderOp.bDir tmpDir, hperm.mem_iff.mpr (by simp), rfl⟩))
      (huniqAt _ _ ?_)
    intro op hop hk
    rcases hcanon op hop with rfl | rfl | rfl | rfl | rfl <;>
      first
      | rfl
      | simp [BuilderOp.entry] at hk
  have henv : lookupValue ((ops.map BuilderOp.entry).reverse)
      Key.env = some (GoVal.strSlice ["FOO=bar", "BAZ=quux"]) := by
    refine lookupValue_unique _ _ _
      (List.mem_reverse.mpr (List.mem_map.mpr
        ⟨BuilderOp.bEnv ["FOO=bar", "BAZ=quux"],
          hperm.mem_iff.mpr (by simp), rfl⟩))
      (huniqAt _ _ ?_)
    intro op hop hk
    rcases hcanon op hop with rfl | rfl | rfl | rfl | rfl <;>
      first
      | rfl
      | simp [BuilderOp.entry] at hk
  have hwf : wellFormed ((ops.map BuilderOp.entry).reverse) := by
    intro k v h
    cases k with
    | stdout => rw [hstdout] at h; cases h; exact ha
    | stderr => rw [hstderr] at h; cases h; exact hb
    | stdin => rw [hstdin] at h; cases h; exact hc
    | dir => rw [hdir] at h; cases h; rfl
    | env => rw [henv] at h; cases h; rfl
    | extraFiles => rfl
  rw [hctx, create_wf _ _ _ hwf]
  simp [resolveCmd, resolvedStream, resolvedDir, resolvedEnv,
    hstdout, hstderr, hstdin, hdir, henv]

theorem C1_witness :
    Create (applyOps []
        [BuilderOp.bStdout (.stream 10 true true "*bytes.Buffer"),
         BuilderOp.bStderr (.stream 11 true true "*bytes.Buffer"),
         BuilderOp.bStdin (.stream 12 true true "*bytes.Buffer"),
         BuilderOp.bDir "/tmp/runcmd-test",
         BuilderOp.bEnv ["FOO=bar", "BAZ=quux"]]) "ls" [] =
      .ok { path := "ls", args := [],
            stdout := some (.stream 10 true true "*bytes.Buffer"),
            stderr := some (.stream 11 true true "*bytes.Buffer"),
            stdin := some (.stream 12 true true "*bytes.Buffer"),
            dir := "/tmp/runcmd-test",
            env := some ["FOO=bar", "BAZ=quux"],
            extraFiles := none } :=
  C1_chained_options_resolve (.stream 10 true true "*bytes.Buffer")
    (.stream 11 true true "*bytes.Buffer")
    (.stream 12 true true "*bytes.Buffer") rfl rfl rfl
    "/tmp/runcmd-test" (by decide) _ (List.Perm.refl _) "ls" []

/-- Claim C3: when a context carries, under one of the five keys
`Create` inspects, a present value of the wrong type, and every key
inspected earlier in the fixed order Stdout, Stderr, Stdin, Dir, Env
is absent or well-typed, `Create` returns no handle but exactly the
error for that first wrong-typed option, naming the option and the
observed type, wrapped with the option-identifying prefix text. -/
theorem C3_first_type_mismatch_reported (ctx : GoContext) (k : Key)
    (hk : k ≠ Key.extraFiles) (v : GoVal)
    (hl : lookupValue ctx k = some v) (hbad : okType k v = false)
    (hprev : ∀ k' v', inspOrder k' < inspOrder k →
      lookupValue ctx k' = some v' → okType k' v' = true)
    (path : String) (args : List String) :
    Create ctx path args = .error (wrappedMismatch k v) := by
  cases k with
  | extraFiles => exact absurd rfl hk
  | stdout =>
    have hw : v.isWriter = false := hbad
    have hg : getWriter ctx (some osStdout) Key.stdout "Stdout" =
        .error ("expected io.Writer for " ++ "Stdout" ++ ", got " ++
          v.typeName) := by
      simp [getWriter, hl, hw]
    unfold Create
    rw [hg]
    rfl
  | stderr =>
    have h0 := getWriter_wf ctx osStdout Key.stdout "Stdout"
      (fun w hw => hprev Key.stdout w (by decide) hw)
    have hw : v.isWriter = false := hbad
    have hg : getWriter ctx (some osStderr) Key.stderr "Stderr" =
        .error ("expected io.Writer for " ++ "Stderr" ++ ", got " ++
          v.typeName) := by
      simp [getWriter, hl, hw]
    unfold Create
    rw [h0, hg]
    rfl
  | stdin =>
    have h0 := getWriter_wf ctx osStdout Key.stdout "Stdout"
      (fun w hw => hprev Key.stdout w (by decide) hw)
    have h1 := getWriter_wf ctx osStderr Key.stderr "Stderr"
      (fun w hw => hprev Key.stderr w (by decide) hw)
    have hr : v.isReader = false := hbad
    have hg : getReader ctx (some osStdin) Key.stdin "Stdin" =
        .error ("expected io.Reader for " ++ "Stdin" ++ ", got " ++
          v.typeName) := by
      simp [getReader, hl, hr]
    unfold Create
    rw [h0, h1, hg]
    rfl
  | dir =>
    have h0 := getWriter_wf ctx osStdout Key.stdout "Stdout"
      (fun w hw => hprev Key.stdout w (by decide) hw)
    have h1 := getWriter_wf ctx osStderr Key.stderr "Stderr"
      (fun w hw => hprev Key.stderr w (by decide) hw)
    have h2 := getReader_wf ctx osStdin Key.stdin "Stdin"
      (fun w hw => hprev Key.stdin w (by decide) hw)
    have hbad' : v.asString.isSome = false := hbad
    have hs : v.asString = none := by
      cases hv : v.asString with
      | none => rfl
      | some w => rw [hv] at hbad'; simp at hbad'
    have hg : getString ctx "" Key.dir "Dir" =
        .error ("expected string for " ++ "Dir" ++ ", got " ++
          v.typeName) := by
      simp [getString, hl, hs]
    unfold Create
    rw [h0, h1, h2, hg]
    rfl
  | env =>
    have h0 := getWriter_wf ctx osStdout Key.stdout "Stdout"
      (fun w hw => hprev Key.stdout w (by decide) hw)
    have h1 := getWriter_wf ctx osStderr Key.stderr "Stderr"
      (fun w hw => hprev Key.stderr w (by decide) hw)
    have h2 := getReader_wf ctx osStdin Key.stdin "Stdin"
      (fun w hw => hprev Key.stdin w (by decide) hw)
    have h3 := getString_wf ctx "Dir"
      (fun w hw => hprev Key.dir w (by decide) hw)
    have hbad' : v.asStrSlice.isSome = false := hbad
    have hs : v.asStrSlice = none := by
      cases hv : v.asStrSlice with
      | none => rfl
      | some w => rw [hv] at hbad'; simp at hbad'
    have hg : getStringSlice ctx none Key.env "Env" =
        .error ("expected string for " ++ "Env" ++ ", got " ++
          v.typeName) := by
      simp [getStringSlice, hl, hs]
    unfold Create
    rw [h0, h1, h2, h3, hg]
    rfl

theorem C3_witness :
    Create [(Key.stdout, GoVal.str "oops"), (Key.env, GoVal.str "bad")]
      "ls" [] =
    .error
      "failed to assign Stdout: expected io.Writer for Stdout, got string" :=
  C3_first_type_mismatch_reported
    [(Key.stdout, GoVal.str "oops"), (Key.env, GoVal.str "bad")]
    Key.stdout (by decide) (GoVal.str "oops") rfl rfl
    (fun k' v' h => absurd h (Nat.not_lt_zero _)) "ls" []

/-- Claim C7: every `With*` call returns the very same context pointer
as the receiver, replaces the receiver's embedded context with a new
overlay node holding exactly the one added key/value pair in front of
the old chain (so prior overlay nodes are untouched, remaining as the
tail), and leaves every other context cell unchanged. -/
theorem C7_with_mutates_receiver_in_place (h : Heap) (p : Nat) :
    (∀ v, (heapWithStdout h p v).2 = p ∧
      (heapWithStdout h p v).1 p = (Key.stdout, v) :: h p ∧
      ∀ q, q ≠ p → (heapWithStdout h p v).1 q = h q) ∧
    (∀ v, (heapWithStderr h p v).2 = p ∧
      (heapWithStderr h p v).1 p = (Key.stderr, v) :: h p ∧
      ∀ q, q ≠ p → (heapWithStderr h p v).1 q = h q) ∧
    (∀ v, (heapWithStdin h p v).2 = p ∧
      (heapWithStdin h p v).1 p = (Key.stdin, v) :: h p ∧
      ∀ q, q ≠ p → (heapWithStdin h p v).1 q = h q) ∧
    (∀ s, (heapWithDir h p s).2 = p ∧
      (heapWithDir h p s).1 p = (Key.dir, GoVal.str s) :: h p ∧
      ∀ q, q ≠ p → (heapWithDir h p s).1 q = h q) ∧
    (∀ environ, (heapWithEnv h p environ).2 = p ∧
      (heapWithEnv h p environ).1 p =
        (Key.env, GoVal.strSlice environ) :: h p ∧
      ∀ q, q ≠ p → (heapWithEnv h p environ).1 q = h q) ∧
    (∀ files, (heapWithExtraFiles h p files).2 = p ∧
      (heapWithExtraFiles h p files).1 p =
        (Key.extraFiles, GoVal.fileSlice files) :: h p ∧
      ∀ q, q ≠ p → (heapWithExtraFiles h p files).1 q = h q) := by
  refine ⟨?_, ?_, ?_, ?_, ?_, ?_⟩ <;>
    intro x <;>
    exact ⟨rfl,
      by simp [heapWithStdout, heapWithStderr, heapWithStdin,
        heapWithDir, heapWithEnv, heapWithExtraFiles, heapWithValue,
        withValue],
      fun q hq => by
        simp [heapWithStdout, heapWithStderr, heapWithStdin,
          heapWithDir, heapWithEnv, heapWithExtraFiles, heapWithValue,
          hq]⟩

theorem C7_witness :
    (heapWithStdout (fun _ => []) 0 osStdout).2 = 0 ∧
    (heapWithStdout (fun _ => []) 0 osStdout).1 0 =
      [(Key.stdout, osStdout)] ∧
    (heapWithStdout (fun _ => []) 0 osStdout).1 1 = [] := by
  obtain ⟨hs, _, _, _, _, _⟩ :=
    C7_with_mutates_receiver_in_place (fun _ => []) 0
  obtain ⟨h1, h2, h3⟩ := hs osStdout
  exact ⟨h1, h2, h3 1 (by decide)⟩

/-- Claim C8: `Run` wraps a construction failure with the
`failed to create` text and otherwise returns exactly the result of
running the constructed handle to completion, unwrapped; it consults
no other error source. -/
theorem C8_run_delegates (runOracle : Cmd → Option String)
    (ctx : GoContext) (path : String) (args : List String) :
    (∀ e, Create ctx path args = .error e →
      Run runOracle ctx path args =
        some ("failed to create *exec.Cmd: " ++ e)) ∧
    (∀ cmd, Create ctx path args = .ok cmd →
      Run runOracle ctx path args = runOracle cmd) := by
  constructor <;> intro x hx <;> simp [Run, hx]

theorem C8_witness :
    Run (fun _ => none) [] "ls" [] = none ∧
    Run (fun _ => none) [(Key.stdout, GoVal.str "oops")] "ls" [] =
      some ("failed to create *exec.Cmd: " ++
        "failed to assign Stdout: expected io.Writer for Stdout, got string") :=
  ⟨(C8_run_delegates (fun _ => none) [] "ls" []).2
      { path := "ls", args := [], stdout := some osStdout,
        stderr := some osStderr, stdin := some osStdin, dir := "",
        env := none, extraFiles := none } rfl,
    (C8_run_delegates (fun _ => none)
        [(Key.stdout, GoVal.str "oops")] "ls" []).1
      "failed to assign Stdout: expected io.Writer for Stdout, got string"
      rfl⟩

/-- Claim C9: calling `Create` twice on the same unmodified context
with the same path and arguments yields two handles with identical
configuration fields but distinct identities; the context value itself
is only read (`Create` is a pure function of it), so its option
lookups are unchanged by each resolution. -/
theorem C9_create_twice_independent (ctx : GoContext) (path : String)
    (args : List String) (fresh : Nat) (cmd : Cmd)
    (h : Create ctx path args = .ok cmd) :
    (createFresh ctx path args fresh).1 = .ok (fresh, cmd) ∧
    (createFresh ctx path args
      (createFresh ctx path args fresh).2).1 = .ok (fresh + 1, cmd) ∧
    fresh ≠ fresh + 1 := by
  refine ⟨?_, ?_, by omega⟩ <;> simp [createFresh, h]

theorem C9_witness :
    (createFresh [] "ls" [] 0).1 =
      .ok (0, { path := "ls", args := [], stdout := some osStdout,
                stderr := some osStderr, stdin := some osStdin,
                dir := "", env := none, extraFiles := none }) ∧
    (createFresh [] "ls" [] (createFresh [] "ls" [] 0).2).1 =
      .ok (1, { path := "ls", args := [], stdout := some osStdout,
                stderr := some osStderr, stdin := some osStdin,
                dir := "", env := none, extraFiles := none }) ∧
    (0 : Nat) ≠ 1 :=
  C9_create_twice_independent [] "ls" [] 0
    { path := "ls", args := [], stdout := some osStdout,
      stderr := some osStderr, stdin := some osStdin, dir := "",
      env := none, extraFiles := none } rfl

/-- Claim C2 fails on the code: `WithExtraFiles` stores the file list
in the context, but `Create` never inspects the ExtraFiles key, so the
returned handle's extra-files field is always nil even when the
context carries files.  The first conjunct shows the context does
carry the stored list; the second shows the handle built from it has
no extra files. -/
theorem C2_extraFiles_dropped :
    lookupValue (applyOps [] [BuilderOp.bExtraFiles [7, 8]])
      Key.extraFiles = some (GoVal.fileSlice [7, 8]) ∧
    Create (applyOps [] [BuilderOp.bExtraFiles [7, 8]]) "ls" [] =
      .ok { path := "ls", args := [], stdout := some osStdout,
            stderr := some osStderr, stdin := some osStdin, dir := "",
            env := none, extraFiles := none } :=
  ⟨rfl, rfl⟩
